import Mathlib

/-!
# Verification of the stocks REST resource (src/app/routes/stock_routes.js)

Shallow embedding of the five route handlers (INDEX, SHOW, CREATE, UPDATE,
DESTROY) of `stock_routes.js`, together with the helper middleware they
require.  The document store is modelled as an association list from `Nat`
identifiers to records; asynchronous promise chains become sequential
pure pipelines, and each handler additionally returns the list of pipeline
steps it executed, in order, so that temporal claims about step ordering
can be stated.
-/

/-- A JSON-ish field value appearing in a request payload: a string or a
non-string (numeric) value. -/
inductive Value where
  | str (s : String)
  | num (n : Int)
  deriving DecidableEq, Repr

/-- A `Stock` record: fields `title`, `text` and `owner` (an identity
reference, modelled as the owning user's id string). -/
structure Stock where
  title : String
  text : String
  owner : String
  deriving DecidableEq, Repr

/-- The inner mapping of a payload: field name to value. -/
abbrev FieldMap := List (String × Value)

/-- A nested mutation payload: resource name to inner field mapping
(`req.body`). -/
abbrev Body := List (String × FieldMap)

/-- The document store: identifiers paired with records. -/
abbrev Store := List (Nat × Stock)

/-- First-match lookup in a string-keyed association list (JS property
access `obj[key]`). -/
def lookupKey {α : Type} : List (String × α) → String → Option α
  | [], _ => none
  | (k, v) :: rest, key => if k = key then some v else lookupKey rest key

/-- `req.body.stock`: the inner field map under the "stock" key (empty when
absent). -/
def reqStock (body : Body) : FieldMap :=
  (lookupKey body "stock").getD []

/-- JS `delete obj[key]`: remove a key/value pair from a field map. -/
def deleteKey (fields : FieldMap) (key : String) : FieldMap :=
  fields.filter (fun p => !decide (p.1 = key))

/-- JS `obj[key] = v`: overwrite the value at `key` when present, append the
binding otherwise. -/
def setField (fields : FieldMap) (key : String) (v : Value) : FieldMap :=
  match lookupKey fields key with
  | some _ => fields.map (fun p => (p.1, if p.1 = key then v else p.2))
  | none => fields ++ [(key, v)]

/-- Read a field as a string value (`none` when absent or non-string). -/
def fieldStr (fields : FieldMap) (key : String) : Option String :=
  match lookupKey fields key with
  | some (Value.str s) => some s
  | _ => none

/-- Modelled from the spec: `lib/remove_blank_fields` is required by the
routes but is not under src/.  Per spec section 4.3 the Field Sanitizer takes
a nested payload and produces a new payload where any field whose value is
the empty string is removed from the inner mapping; non-string and non-empty
values pass through unchanged. -/
def removeBlanks (body : Body) : Body :=
  body.map (fun p => (p.1, p.2.filter (fun q => !decide (q.2 = Value.str ""))))

/-- `Stock.findById`: first record stored under the identifier, `none` when
no record exists (the external store's point lookup). -/
def findById : Store → Nat → Option Stock
  | [], _ => none
  | (j, s) :: rest, i => if j = i then some s else findById rest i

/-- Mongoose `stock.updateOne(fields)`: partial update of the record stored
under `i`; each of `title`, `text`, `owner` is overwritten exactly when the
payload carries a string value for it. -/
def applyUpdate (s : Stock) (fields : FieldMap) : Stock :=
  { title := (fieldStr fields "title").getD s.title
    text := (fieldStr fields "text").getD s.text
    owner := (fieldStr fields "owner").getD s.owner }

/-- Apply a partial update to the record(s) stored under identifier `i`. -/
def updateOne : Store → Nat → FieldMap → Store
  | [], _, _ => []
  | (j, s) :: rest, i, fields =>
    (j, if j = i then applyUpdate s fields else s) :: updateOne rest i fields

/-- The error taxonomy of spec section 7. -/
inductive Err where
  | NotFound
  | Forbidden
  | Unauthorized
  | ValidationError
  | StoreError
  deriving DecidableEq, Repr

/-- The HTTP responses the handlers produce. -/
inductive Response where
  | ok200stocks (stocks : List Stock)
  | ok200stock (s : Stock)
  | created201 (s : Stock)
  | noContent204
  | err (e : Err)
  deriving DecidableEq, Repr

/-- Pipeline steps of the route handlers, used to record execution order. -/
inductive Step where
  | auth
  | sanitize
  | discardOwner
  | lookup
  | notFoundGuard
  | ownershipGuard
  | updateStore
  | deleteStore
  | respond204
  deriving DecidableEq, Repr

/-- Mongoose `stock.deleteOne()`: removal of the record under `i`; the
`storeFail` flag models the external store rejecting the operation
(`StoreError`), in which case the store is unchanged. -/
def deleteOneOp (store : Store) (i : Nat) (storeFail : Bool) : Except Err Store :=
  if storeFail then Except.error Err.StoreError
  else Except.ok (store.filter (fun p => !decide (p.1 = i)))

/-- INDEX handler, `GET /stocks` (stock_routes.js lines 32-45): no
authentication, `Stock.find()` then map `toObject`, respond 200 with the
collection.  No guard is applied. -/
def indexStocks (store : Store) : Response :=
  Response.ok200stocks (store.map (fun p => p.2))

/-- SHOW handler, `GET /stocks/:id` (lines 49-57): `findById`, then
`handle404` (modelled from the spec: `lib/custom_errors.handle404` is not
under src/; per spec section 4.1 an absent lookup result fails with
`NotFound`, a present record passes through), then respond 200. -/
def showStock (store : Store) (i : Nat) : Response :=
  match findById store i with
  | none => Response.err Err.NotFound
  | some s => Response.ok200stock s

/-- The fresh identifier the external store assigns on insertion: one above
every identifier in use. -/
def freshId (store : Store) : Nat :=
  store.foldr (fun p m => max p.1 m) 0 + 1

/-- Modelled from the spec: the Mongoose model `app/models/stock` is not
under src/.  `Stock.create` validates the record shape; per spec section 7 a
missing required field is a `ValidationError`, so a record is built exactly
when `title`, `text` and `owner` are all present as strings. -/
def mkStock (fields : FieldMap) : Option Stock :=
  match fieldStr fields "title", fieldStr fields "text", fieldStr fields "owner" with
  | some t, some x, some o => some { title := t, text := x, owner := o }
  | _, _, _ => none

/-- CREATE handler, `POST /stocks` (lines 61-75): `requireToken` (the
`user` argument is the authenticated identity, `none` when the bearer token
is missing or invalid), then `req.body.stock.owner = req.user.id`, then
`Stock.create`, then respond 201 with the created record. -/
def createStock (store : Store) (user : Option String) (body : Body) :
    Store × Response :=
  match user with
  | none => (store, Response.err Err.Unauthorized)
  | some uid =>
    match mkStock (setField (reqStock body) "owner" (Value.str uid)) with
    | none => (store, Response.err Err.ValidationError)
    | some s => (store ++ [(freshId store, s)], Response.created201 s)

/-- UPDATE handler, `PATCH /stocks/:id` (lines 79-98).  The middleware chain
is `requireToken`, then `removeBlanks`, then the handler body, which first
runs `delete req.body.stock.owner`, then `Stock.findById`, `handle404`,
`requireOwnership` (modelled from the spec: `lib/custom_errors` is not under
src/; per spec section 4.2 a requester identity differing from the record's
`owner` fails with `Forbidden`, a match passes), then
`stock.updateOne(req.body.stock)`, then `res.sendStatus(204)`.  The first
component records the steps executed, in the order the code runs them. -/
def updateStock (store : Store) (user : Option String) (i : Nat) (body : Body) :
    List Step × Store × Response :=
  match user with
  | none => ([Step.auth], store, Response.err Err.Unauthorized)
  | some uid =>
    match findById store i with
    | none =>
      ([Step.auth, Step.sanitize, Step.discardOwner, Step.lookup, Step.notFoundGuard],
       store, Response.err Err.NotFound)
    | some s =>
      if uid = s.owner then
        ([Step.auth, Step.sanitize, Step.discardOwner, Step.lookup, Step.notFoundGuard,
          Step.ownershipGuard, Step.updateStore, Step.respond204],
         updateOne store i (deleteKey (reqStock (removeBlanks body)) "owner"),
         Response.noContent204)
      else
        ([Step.auth, Step.sanitize, Step.discardOwner, Step.lookup, Step.notFoundGuard,
          Step.ownershipGuard],
         store, Response.err Err.Forbidden)

/-- DESTROY handler, `DELETE /stocks/:id` (lines 102-115): `requireToken`,
`Stock.findById`, `handle404`, `requireOwnership`, then `stock.deleteOne()`.
The handler does not return the result of `deleteOne` into the promise
chain, so a store failure during removal is not propagated: the following
`res.sendStatus(204)` runs regardless, which the error branch below
reproduces. -/
def destroyStock (store : Store) (user : Option String) (i : Nat) (storeFail : Bool) :
    List Step × Store × Response :=
  match user with
  | none => ([Step.auth], store, Response.err Err.Unauthorized)
  | some uid =>
    match findById store i with
    | none =>
      ([Step.auth, Step.lookup, Step.notFoundGuard], store, Response.err Err.NotFound)
    | some s =>
      if uid = s.owner then
        match deleteOneOp store i storeFail with
        | Except.error _ =>
          ([Step.auth, Step.lookup, Step.notFoundGuard, Step.ownershipGuard,
            Step.deleteStore, Step.respond204],
           store, Response.noContent204)
        | Except.ok st =>
          ([Step.auth, Step.lookup, Step.notFoundGuard, Step.ownershipGuard,
            Step.deleteStore, Step.respond204],
           st, Response.noContent204)
      else
        ([Step.auth, Step.lookup, Step.notFoundGuard, Step.ownershipGuard],
         store, Response.err Err.Forbidden)

/-- The order in which the UPDATE route's code executes its steps. -/
def updatePipelineOrder : List Step :=
  [Step.auth, Step.sanitize, Step.discardOwner, Step.lookup, Step.notFoundGuard,
   Step.ownershipGuard, Step.updateStore, Step.respond204]

/-- The order the spec's section 4.4 claims for the UPDATE route
(authentication, then discard `owner`, then Field Sanitizer, ...), written
from the spec's words for comparison with the code. -/
def updateSpecOrder : List Step :=
  [Step.auth, Step.discardOwner, Step.sanitize, Step.lookup, Step.notFoundGuard,
   Step.ownershipGuard, Step.updateStore, Step.respond204]

/-- A concrete record owned by user `u1`. -/
def stockA : Stock := { title := "AAPL", text := "buy", owner := "u1" }

/-- A concrete one-record store. -/
def store1 : Store := [(1, stockA)]

/-- A concrete update payload. -/
def body1 : Body := [("stock", [("text", Value.str "sell")])]

/-- A concrete well-formed create payload. -/
def body2 : Body := [("stock", [("title", Value.str "AAPL"), ("text", Value.str "buy")])]

/-- Filtering a list twice with the same predicate equals filtering once. -/
theorem filter_idem {α : Type} (f : α → Bool) (l : List α) :
    (l.filter f).filter f = l.filter f := by
  induction l with
  | nil => rfl
  | cons a rest ih =>
    by_cases h : f a
    · simp [List.filter_cons, h, ih]
    · simp [List.filter_cons, h, ih]

/-- Lookup in an appended association list takes the first list's binding
when present. -/
theorem lookupKey_append {α : Type} (a b : List (String × α)) (key : String) :
    lookupKey (a ++ b) key =
      match lookupKey a key with
      | some v => some v
      | none => lookupKey b key := by
  induction a with
  | nil => simp [lookupKey]
  | cons p rest ih =>
    obtain ⟨k0, v0⟩ := p
    by_cases hk : k0 = key
    · simp [lookupKey, hk]
    · simp [lookupKey, hk, ih]

/-- Overwriting every binding of `key` makes lookup of `key` return the new
value, provided a binding existed. -/
theorem lookupKey_map_set {fs : FieldMap} {key : String} {w : Value} (v : Value)
    (h : lookupKey fs key = some w) :
    lookupKey (fs.map (fun p => (p.1, if p.1 = key then v else p.2))) key = some v := by
  induction fs with
  | nil => simp [lookupKey] at h
  | cons p rest ih =>
    obtain ⟨k0, v0⟩ := p
    by_cases hk : k0 = key
    · simp [lookupKey, hk]
    · simp only [lookupKey, if_neg hk] at h
      simp [lookupKey, hk, ih h]

/-- Overwriting the bindings of `key` leaves lookups of other keys
unchanged. -/
theorem lookupKey_map_set_ne (fs : FieldMap) (key k2 : String) (v : Value)
    (hne : k2 ≠ key) :
    lookupKey (fs.map (fun p => (p.1, if p.1 = key then v else p.2))) k2 =
      lookupKey fs k2 := by
  induction fs with
  | nil => rfl
  | cons p rest ih =>
    obtain ⟨k0, v0⟩ := p
    by_cases h2 : k0 = k2
    · subst h2
      simp [lookupKey, hne, ih]
    · simp [lookupKey, h2, ih]

/-- After `setField`, looking up the written key returns the new value. -/
theorem lookupKey_setField_self (fs : FieldMap) (key : String) (v : Value) :
    lookupKey (setField fs key v) key = some v := by
  unfold setField
  cases h : lookupKey fs key with
  | none =>
    rw [lookupKey_append, h]
    simp [lookupKey]
  | some w => exact lookupKey_map_set v h

/-- After `setField`, lookups of other keys are unchanged. -/
theorem lookupKey_setField_ne (fs : FieldMap) (key k2 : String) (v : Value)
    (hne : k2 ≠ key) : lookupKey (setField fs key v) k2 = lookupKey fs k2 := by
  unfold setField
  cases h : lookupKey fs key with
  | none =>
    rw [lookupKey_append]
    cases h2 : lookupKey fs k2 with
    | none => simp [lookupKey, Ne.symm hne]
    | some w => rfl
  | some w => exact lookupKey_map_set_ne fs key k2 v hne

/-- After `deleteKey`, the deleted key is absent. -/
theorem lookupKey_deleteKey_self (fs : FieldMap) (key : String) :
    lookupKey (deleteKey fs key) key = none := by
  simp only [deleteKey]
  induction fs with
  | nil => rfl
  | cons p rest ih =>
    obtain ⟨k0, v0⟩ := p
    by_cases hk : k0 = key
    · simp [List.filter_cons, hk, ih]
    · simp [List.filter_cons, hk, lookupKey, ih]

/-- `fieldStr` ignores `setField` writes to other keys. -/
theorem fieldStr_setField_ne (fs : FieldMap) (key k2 : String) (v : Value)
    (hne : k2 ≠ key) : fieldStr (setField fs key v) k2 = fieldStr fs k2 := by
  simp [fieldStr, lookupKey_setField_ne fs key k2 v hne]

/-- `fieldStr` reads back a string written by `setField`. -/
theorem fieldStr_setField_str (fs : FieldMap) (key : String) (s : String) :
    fieldStr (setField fs key (Value.str s)) key = some s := by
  simp [fieldStr, lookupKey_setField_self]

/-- `findById` after `updateOne`: the record under the updated identifier is
updated, every other record is unchanged. -/
theorem findById_updateOne (store : Store) (i j : Nat) (fields : FieldMap) :
    findById (updateOne store i fields) j =
      (findById store j).map (fun s => if i = j then applyUpdate s fields else s) := by
  induction store with
  | nil => rfl
  | cons p rest ih =>
    obtain ⟨k, s⟩ := p
    by_cases hki : k = i
    · subst hki
      by_cases hkj : k = j
      · subst hkj
        simp [updateOne, findById]
      · simp [updateOne, findById, hkj, ih]
    · by_cases hkj : k = j
      · subst hkj
        simp [updateOne, findById, hki, Ne.symm hki]
      · simp [updateOne, findById, hki, hkj, ih]

/-- A partial update whose payload has no `owner` field preserves the
record's `owner`. -/
theorem applyUpdate_owner (s : Stock) (fields : FieldMap)
    (h : lookupKey fields "owner" = none) :
    (applyUpdate s fields).owner = s.owner := by
  simp [applyUpdate, fieldStr, h]

/-- C1: for every stock record, the `owner` field set at creation is never
altered by an update request: the UPDATE handler deletes any `owner` field
from the payload before it reaches the store, so after an update every
record's `owner` equals its `owner` before the update. -/
theorem c1_owner_immutable (store : Store) (user : Option String) (i j : Nat)
    (body : Body) :
    lookupKey (deleteKey (reqStock (removeBlanks body)) "owner") "owner" = none ∧
    (findById (updateStock store user i body).2.1 j).map Stock.owner =
      (findById store j).map Stock.owner := by
  refine ⟨lookupKey_deleteKey_self _ _, ?_⟩
  cases user with
  | none => rfl
  | some uid =>
    cases h : findById store i with
    | none => simp [updateStock, h]
    | some s =>
      by_cases ho : uid = s.owner
      · simp only [updateStock, h, ho, if_pos]
        rw [findById_updateOne]
        cases findById store j with
        | none => rfl
        | some s2 =>
          by_cases hij : i = j
          · simp [hij, applyUpdate_owner _ _ (lookupKey_deleteKey_self _ _)]
          · simp [hij]
      · simp [updateStock, h, ho]

/-- C7: the Field Sanitizer keeps the outer resource keys and retains an
inner field exactly when it was present in the input and its value is not
the empty string; every retained field is unchanged. -/
theorem c7_sanitizer_removes_blanks (body : Body) :
    (removeBlanks body).map Prod.fst = body.map Prod.fst ∧
    ∀ r k : String, ∀ v : Value,
      ((∃ fs, (r, fs) ∈ removeBlanks body ∧ (k, v) ∈ fs) ↔
        ((∃ fs, (r, fs) ∈ body ∧ (k, v) ∈ fs) ∧ v ≠ Value.str "")) := by
  constructor
  · induction body with
    | nil => rfl
    | cons p rest ih => simp only [removeBlanks, List.map_cons] at ih ⊢; rw [ih]
  · intro r k v
    constructor
    · rintro ⟨fs, hmem, hkv⟩
      simp only [removeBlanks, List.mem_map] at hmem
      obtain ⟨p, hp, heq⟩ := hmem
      obtain ⟨k0, fs0⟩ := p
      simp only [Prod.mk.injEq] at heq
      obtain ⟨hr, hfs⟩ := heq
      subst hr hfs
      rw [List.mem_filter] at hkv
      refine ⟨⟨fs0, hp, hkv.1⟩, ?_⟩
      simpa using hkv.2
    · rintro ⟨⟨fs, hmem, hkv⟩, hv⟩
      refine ⟨fs.filter (fun q => !decide (q.2 = Value.str "")), ?_, ?_⟩
      · simp only [removeBlanks, List.mem_map]
        exact ⟨(r, fs), hmem, rfl⟩
      · rw [List.mem_filter]
        exact ⟨hkv, by simpa using hv⟩

/-- C8: the Field Sanitizer is idempotent: sanitizing an already sanitized
payload yields the same payload. -/
theorem c8_sanitizer_idempotent (body : Body) :
    removeBlanks (removeBlanks body) = removeBlanks body := by
  induction body with
  | nil => rfl
  | cons p rest ih =>
    simp only [removeBlanks, List.map_cons] at ih ⊢
    rw [filter_idem, ih]

/-- C10: the INDEX route never fails with any error (in particular never
`NotFound`): it responds with the collection of all stored records, so an
empty store yields 200 with an empty collection. -/
theorem c10_index_never_notfound (store : Store) :
    (∀ e : Err, indexStocks store ≠ Response.err e) ∧
    indexStocks ([] : Store) = Response.ok200stocks [] := by
  refine ⟨fun e h => ?_, rfl⟩
  simp [indexStocks] at h

/-- C10 witness: at the empty store the INDEX response is not `NotFound`. -/
theorem c10_index_never_notfound_witness :
    indexStocks ([] : Store) ≠ Response.err Err.NotFound :=
  (c10_index_never_notfound []).1 Err.NotFound

/-- C3, behavior at the failing input: an owner-issued DELETE whose store
removal fails (`storeFail = true`) still responds 204 and leaves the store
unchanged; the `StoreError` is dropped because the DESTROY handler does not
return the `deleteOne` promise into its chain.  The code contradicts the
claim (and its own comment "send back 204 and no content if the deletion
succeeded"), so the claim stands and the code is the bug. -/
theorem c3_delete_store_error_swallowed :
    (destroyStock store1 (some "u1") 1 true).2.2 = Response.noContent204 ∧
    (destroyStock store1 (some "u1") 1 true).2.1 = store1 ∧
    deleteOneOp store1 1 true = Except.error Err.StoreError := by
  refine ⟨?_, ?_, ?_⟩ <;> rfl

/-- C2: when the authenticated requester differs from the target record's
owner, both UPDATE and DESTROY fail with `Forbidden` and the store is
unchanged. -/
theorem c2_forbidden_no_mutation (store : Store) (uid : String) (i : Nat)
    (body : Body) (s : Stock) (storeFail : Bool)
    (hfind : findById store i = some s) (hne : uid ≠ s.owner) :
    (updateStock store (some uid) i body).2.1 = store ∧
    (updateStock store (some uid) i body).2.2 = Response.err Err.Forbidden ∧
    (destroyStock store (some uid) i storeFail).2.1 = store ∧
    (destroyStock store (some uid) i storeFail).2.2 = Response.err Err.Forbidden := by
  simp [updateStock, destroyStock, hfind, hne]

/-- C2 witness: requester `u2` on the record owned by `u1`. -/
theorem c2_forbidden_no_mutation_witness :
    findById store1 1 = some stockA ∧ "u2" ≠ stockA.owner ∧
    ((updateStock store1 (some "u2") 1 body1).2.1 = store1 ∧
      (updateStock store1 (some "u2") 1 body1).2.2 = Response.err Err.Forbidden ∧
      (destroyStock store1 (some "u2") 1 false).2.1 = store1 ∧
      (destroyStock store1 (some "u2") 1 false).2.2 = Response.err Err.Forbidden) :=
  ⟨rfl, by decide,
    c2_forbidden_no_mutation store1 "u2" 1 body1 stockA false rfl (by decide)⟩

/-- C4: every lookup of an identifier with no record fails with `NotFound`,
on SHOW, UPDATE and DESTROY alike. -/
theorem c4_notfound_all_verbs (store : Store) (i : Nat) (uid : String)
    (body : Body) (storeFail : Bool) (h : findById store i = none) :
    showStock store i = Response.err Err.NotFound ∧
    (updateStock store (some uid) i body).2.2 = Response.err Err.NotFound ∧
    (destroyStock store (some uid) i storeFail).2.2 = Response.err Err.NotFound := by
  simp [showStock, updateStock, destroyStock, h]

/-- C4 witness: the empty store has no record under identifier 7. -/
theorem c4_notfound_all_verbs_witness :
    findById ([] : Store) 7 = none ∧
    (showStock ([] : Store) 7 = Response.err Err.NotFound ∧
      (updateStock ([] : Store) (some "u1") 7 body1).2.2 = Response.err Err.NotFound ∧
      (destroyStock ([] : Store) (some "u1") 7 false).2.2 = Response.err Err.NotFound) :=
  ⟨rfl, c4_notfound_all_verbs [] 7 "u1" body1 false rfl⟩

/-- C5 counterexample: on a concrete successful update request the executed
step sequence is not the order the spec claims (the code runs the Field
Sanitizer middleware before the handler deletes the client-supplied
`owner`, not after). -/
theorem c5_order_counterexample :
    (updateStock store1 (some "u1") 1 body1).1 ≠ updateSpecOrder := by decide

/-- C5 amended: every update request executes its steps in the order
require authentication, then Field Sanitizer, then discard client-supplied
`owner`, then lookup-by-id, then Not-Found Guard, then Ownership Guard,
then partial update, then 204 response (each request runs a prefix of that
order, the full order when it succeeds). -/
theorem c5_update_pipeline_order (store : Store) (user : Option String)
    (i : Nat) (body : Body) :
    ∃ rest, (updateStock store user i body).1 ++ rest = updatePipelineOrder := by
  cases user with
  | none =>
    exact ⟨[Step.sanitize, Step.discardOwner, Step.lookup, Step.notFoundGuard,
      Step.ownershipGuard, Step.updateStore, Step.respond204], rfl⟩
  | some uid =>
    cases h : findById store i with
    | none =>
      refine ⟨[Step.ownershipGuard, Step.updateStore, Step.respond204], ?_⟩
      simp [updateStock, h, updatePipelineOrder]
    | some s =>
      by_cases ho : uid = s.owner
      · refine ⟨[], ?_⟩
        simp [updateStock, h, ho, updatePipelineOrder]
      · refine ⟨[Step.updateStore, Step.respond204], ?_⟩
        simp [updateStock, h, ho, updatePipelineOrder]

/-- C6: an authenticated create with a well-formed payload stores a record
whose `owner` is the requester's identity and responds 201 with that
record. -/
theorem c6_create_sets_owner (store : Store) (uid : String) (body : Body)
    (t x : String)
    (ht : fieldStr (reqStock body) "title" = some t)
    (hx : fieldStr (reqStock body) "text" = some x) :
    ∃ rec : Stock, rec.owner = uid ∧
      (createStock store (some uid) body).2 = Response.created201 rec ∧
      (createStock store (some uid) body).1 = store ++ [(freshId store, rec)] := by
  have hT := fieldStr_setField_ne (reqStock body) "owner" "title" (Value.str uid)
    (by decide)
  have hX := fieldStr_setField_ne (reqStock body) "owner" "text" (Value.str uid)
    (by decide)
  have hO := fieldStr_setField_str (reqStock body) "owner" uid
  have hm : mkStock (setField (reqStock body) "owner" (Value.str uid)) =
      some { title := t, text := x, owner := uid } := by
    unfold mkStock
    rw [hT, ht, hX, hx, hO]
  exact ⟨{ title := t, text := x, owner := uid }, rfl,
    by simp [createStock, hm], by simp [createStock, hm]⟩

/-- C6 witness: user `u1` creating from the concrete payload `body2`. -/
theorem c6_create_sets_owner_witness :
    fieldStr (reqStock body2) "title" = some "AAPL" ∧
    fieldStr (reqStock body2) "text" = some "buy" ∧
    ∃ rec : Stock, rec.owner = "u1" ∧
      (createStock [] (some "u1") body2).2 = Response.created201 rec ∧
      (createStock [] (some "u1") body2).1 = [] ++ [(freshId [], rec)] :=
  ⟨by decide, by decide,
    c6_create_sets_owner [] "u1" body2 "AAPL" "buy" (by decide) (by decide)⟩

/-- C9: on both mutation routes, whenever the Ownership Guard step runs the
lookup found a record (the guard never sees an absent record) and the
Not-Found Guard step ran strictly before it. -/
theorem c9_ownership_after_notfound (storeP storeD : Store) (uidP uidD : String)
    (iP iD : Nat) (body : Body) (storeFail : Bool) :
    (Step.ownershipGuard ∈ (updateStock storeP (some uidP) iP body).1 →
      findById storeP iP ≠ none ∧
      (updateStock storeP (some uidP) iP body).1.indexOf Step.notFoundGuard <
        (updateStock storeP (some uidP) iP body).1.indexOf Step.ownershipGuard) ∧
    (Step.ownershipGuard ∈ (destroyStock storeD (some uidD) iD storeFail).1 →
      findById storeD iD ≠ none ∧
      (destroyStock storeD (some uidD) iD storeFail).1.indexOf Step.notFoundGuard <
        (destroyStock storeD (some uidD) iD storeFail).1.indexOf Step.ownershipGuard) := by
  constructor
  · cases h : findById storeP iP with
    | none => intro hmem; simp [updateStock, h] at hmem
    | some s =>
      intro _
      refine ⟨by simp [h], ?_⟩
      by_cases ho : uidP = s.owner <;> simp [updateStock, h, ho, List.indexOf] <;> decide
  · cases h : findById storeD iD with
    | none => intro hmem; simp [destroyStock, h] at hmem
    | some s =>
      intro _
      refine ⟨by simp [h], ?_⟩
      by_cases ho : uidD = s.owner
      · cases hd : deleteOneOp storeD iD storeFail <;>
          simp [destroyStock, h, ho, hd, List.indexOf] <;> decide
      · simp [destroyStock, h, ho, List.indexOf]
        decide

/-- C9 witness: owner `u1` updating and deleting record 1. -/
theorem c9_ownership_after_notfound_witness :
    Step.ownershipGuard ∈ (updateStock store1 (some "u1") 1 body1).1 ∧
    (findById store1 1 ≠ none ∧
      (updateStock store1 (some "u1") 1 body1).1.indexOf Step.notFoundGuard <
        (updateStock store1 (some "u1") 1 body1).1.indexOf Step.ownershipGuard) ∧
    Step.ownershipGuard ∈ (destroyStock store1 (some "u1") 1 false).1 ∧
    (findById store1 1 ≠ none ∧
      (destroyStock store1 (some "u1") 1 false).1.indexOf Step.notFoundGuard <
        (destroyStock store1 (some "u1") 1 false).1.indexOf Step.ownershipGuard) :=
  ⟨by decide,
    (c9_ownership_after_notfound store1 store1 "u1" "u1" 1 1 body1 false).1 (by decide),
    by decide,
    (c9_ownership_after_notfound store1 store1 "u1" "u1" 1 1 body1 false).2 (by decide)⟩
